import Mathlib

/-!
Verification of `qtl/pileup.py`.

Shallow embedding of the module's data model and operations:

* a pandas `DataFrame` of pileups is modelled as an ordered list of
  columns, each a sample label paired with its per-position values
  (all columns share one positional index);
* machine floats are modelled as exact rationals `ℚ`;
* fallible code returns `Except String`;
* external collaborators (`samtools`, `qtl.genotype.get_genotype`, the
  covariate residualizer) are parameters of the embedded functions;
* the process working directory (mutated by the `cd` context manager)
  is threaded explicitly as a `String` state.
-/

/-- A pileup table: ordered columns `(sample label, per-position values)`,
all sharing one positional index (`pandas.DataFrame`). -/
abbrev Table := List (String × List ℚ)

/-- Column lookup by label, first match (`df[label]` / `series[label]`). -/
def lookupCol : Table → String → Option (List ℚ)
  | [], _ => none
  | c :: rest, s => if c.1 = s then some c.2 else lookupCol rest s

/-- `norm_pileups` (pileup.py lines 65-78): converts pileups to reads per
million, `pileups_df / libsize_s[pileups_df.columns] * 1e6`, then renames
columns with `id_map`, then optionally applies the external covariate
residualizer (an opaque collaborator, passed as a function). -/
def norm_pileups (pileups_df : Table) (libsize_s : String → ℚ)
    (residualize : Option (Table → Table)) (id_map : String → String) : Table :=
  let pileups_rpm_df : Table :=
    pileups_df.map (fun c => (id_map c.1, c.2.map (fun x => x / libsize_s c.1 * 1000000)))
  match residualize with
  | none => pileups_rpm_df
  | some f => f pileups_rpm_df

theorem norm_pileups_none (t : Table) (lib : String → ℚ) (idm : String → String) :
    norm_pileups t lib none idm
      = t.map (fun c => (idm c.1, c.2.map (fun x => x / lib c.1 * 1000000))) := rfl

/-- With the identity remap and no covariates, the normalized value of a
column is its pointwise image under division by the library size times 1e6. -/
theorem lookupCol_norm_pileups (t : Table) (lib : String → ℚ) (s : String) (vs : List ℚ)
    (h : lookupCol t s = some vs) :
    lookupCol (norm_pileups t lib none (fun x => x)) s
      = some (vs.map (fun x => x / lib s * 1000000)) := by
  induction t with
  | nil => simp [lookupCol] at h
  | cons c rest ih =>
    rw [norm_pileups_none] at *
    by_cases hc : c.1 = s
    · simp only [lookupCol, hc, if_pos] at h ⊢
      subst hc
      simp_all
    · simp only [lookupCol, hc, if_neg, reduceIte] at h ⊢
      exact ih h

/-- Library-size map of the worked example from the spec:
`{A: 1e6, B: 2e6}`. -/
def exLib : String → ℚ := fun s => if s = "A" then 1000000 else 2000000

/-- C1: for every pileup table, library-size map covering its columns,
sample `s` and a column of values, the table returned by `norm_pileups`
with identity `id_map` and no covariates carries, at `s`, the raw values
divided by `libsizes[s]` times `1e6`; and the spec example
`{A:[10,20], B:[30,40]}` with library sizes `{A:1e6, B:2e6}` normalizes to
`{A:[10,20], B:[15,20]}`. -/
theorem C1_norm_pileups_scalar (t : Table) (lib : String → ℚ) (s : String) (vs : List ℚ)
    (h : lookupCol t s = some vs) :
    lookupCol (norm_pileups t lib none (fun x => x)) s
        = some (vs.map (fun x => x / lib s * 1000000))
    ∧ norm_pileups [("A", [10, 20]), ("B", [30, 40])] exLib none (fun x => x)
        = [("A", [10, 20]), ("B", [15, 20])] := by
  refine ⟨lookupCol_norm_pileups t lib s vs h, ?_⟩
  rw [norm_pileups_none]
  simp [exLib]
  norm_num

/-- Witness for C1 at the spec's example input. -/
theorem C1_witness :
    lookupCol (norm_pileups [("A", [10, 20]), ("B", [30, 40])] exLib none (fun x => x)) "A"
        = some ([10, 20].map (fun x => x / exLib "A" * 1000000))
    ∧ norm_pileups [("A", [10, 20]), ("B", [30, 40])] exLib none (fun x => x)
        = [("A", [10, 20]), ("B", [15, 20])] :=
  C1_norm_pileups_scalar [("A", [10, 20]), ("B", [30, 40])] exLib "A" [10, 20] (by decide)

/-- When every column's library size is `1e6`, normalization with the
identity remap and no covariates is the identity map on the table. -/
theorem norm_pileups_of_libsize_million (t : Table) (lib : String → ℚ)
    (h : ∀ c ∈ t, lib c.1 = 1000000) :
    norm_pileups t lib none (fun x => x) = t := by
  rw [norm_pileups_none]
  induction t with
  | nil => rfl
  | cons c rest ih =>
    simp only [List.map_cons, List.cons.injEq]
    constructor
    · have hc := h c (by simp)
      rw [hc]
      have : ∀ x : ℚ, x / 1000000 * 1000000 = x := fun x =>
        div_mul_cancel₀ x (by norm_num)
      simp [this]
    · exact ih (fun d hd => h d (by simp [hd]))

/-- C7 counterexample: with library size 2 for the single sample `A`,
normalizing twice multiplies by an extra `1e6 / 2`, so the claimed
idempotence `norm (norm t) = norm t` fails:
one pass gives `A = [5000000]`, two passes give `A = [2500000000000]`. -/
theorem C7_counterexample :
    norm_pileups (norm_pileups [("A", [10])] (fun _ => 2) none (fun x => x))
        (fun _ => 2) none (fun x => x)
      ≠ norm_pileups [("A", [10])] (fun _ => 2) none (fun x => x) := by
  simp only [norm_pileups_none, List.map_cons, List.map_nil, ne_eq, List.cons.injEq,
    Prod.mk.injEq, and_true, true_and]
  norm_num

/-- C7 amended: re-running normalization (identity remap, no covariates)
is idempotent when every column's library size equals `1e6` — in that case
a single pass is already the identity; for other library sizes a second
pass multiplies each value by `1e6 / libsize` and idempotence fails. -/
theorem C7_amended (t : Table) (lib : String → ℚ)
    (h : ∀ c ∈ t, lib c.1 = 1000000) :
    norm_pileups (norm_pileups t lib none (fun x => x)) lib none (fun x => x)
      = norm_pileups t lib none (fun x => x) := by
  rw [norm_pileups_of_libsize_million t lib h]
  exact norm_pileups_of_libsize_million t lib h

/-- Witness for C7 amended at a concrete table with library size `1e6`. -/
theorem C7_amended_witness :
    norm_pileups (norm_pileups [("A", [7])] (fun _ => 1000000) none (fun x => x))
        (fun _ => 1000000) none (fun x => x)
      = norm_pileups [("A", [7])] (fun _ => 1000000) none (fun x => x) :=
  C7_amended [("A", [7])] (fun _ => 1000000) (by decide)

/-- Genotype dosages: a pandas Series mapping sample label to an integer
dosage or missing (`NaN`), in index order. -/
abbrev DosageSeries := List (String × Option Int)

/-- The `genotypes` argument of `group_pileups`: a Python string, a pandas
Series of dosages, or any other object (unsupported). -/
inductive Genotypes where
  | str (path : String)
  | series (g : DosageSeries)
  | other

/-- Observable computation steps of `group_pileups`, recorded in execution
order: the `norm_pileups` call, the `gt.get_genotype` collaborator call,
and the per-group averaging. -/
inductive Ev where
  | normalize
  | genotypeLookup
  | groupMean
deriving DecidableEq

/-- `str.endswith(suffix)`, modelled on the character list. -/
def strEndsWith (s suffix : String) : Bool :=
  List.isSuffixOf suffix.data s.data

/-- The non-missing dosage values `g[g.notnull()]`, in series order. -/
def dosageValues (g : DosageSeries) : List Int := g.filterMap (fun c => c.2)

/-- `np.unique`: the distinct values, sorted ascending. -/
def uniqueInts (l : List Int) : List Int := List.insertionSort (· ≤ ·) l.dedup

/-- `g[g == i].index`: the samples whose dosage equals `i`, in series order. -/
def groupMembers (g : DosageSeries) (i : Int) : List String :=
  (g.filter (fun c => decide (c.2 = some i))).map (fun c => c.1)

/-- Series lookup by label (first match). -/
def lookupDosage : DosageSeries → String → Option (Option Int)
  | [], _ => none
  | c :: rest, s => if c.1 = s then some c.2 else lookupDosage rest s

/-- `series[cols]`: restrict a dosage series to the given labels, in label
order (labels absent from the series are dropped in this model). Used for
`gt.get_genotype(variant_id, genotypes)[pileups_rpm_df.columns]`. -/
def restrictSeries (g : DosageSeries) (cols : List String) : DosageSeries :=
  cols.filterMap (fun s => (lookupDosage g s).map (fun d => (s, d)))

/-- Number of rows (positions) of a table. -/
def numRows : Table → Nat
  | [] => 0
  | c :: _ => c.2.length

/-- `df[names]`: select columns by label, in the given label order. -/
def selectCols (t : Table) (names : List String) : List (List ℚ) :=
  names.filterMap (fun s => lookupCol t s)

/-- `df.mean(axis=1)` over the selected columns of an `n`-row table: at
each position, the sum across the columns divided by their number. -/
def rowMean (cols : List (List ℚ)) (n : Nat) : List ℚ :=
  (List.range n).map (fun p => ((cols.map (fun c => c.getD p 0)).sum) / (cols.length : ℚ))

/-- The averaging step of `group_pileups` (pileup.py lines 98-99): one mean
column per sorted distinct non-missing dosage value, labelled by it. -/
def groupAvg (rpm : Table) (g : DosageSeries) : List (Int × List ℚ) :=
  (uniqueInts (dosageValues g)).map
    (fun i => (i, rowMean (selectCols rpm (groupMembers g i)) (numRows rpm)))

/-- `group_pileups` (pileup.py lines 81-100): normalizes the pileups, then
resolves the genotype source (a `.vcf.gz` path via the external
`gt.get_genotype` collaborator restricted to the table's columns, a dosage
Series as-is, anything else raising
`ValueError: Unsupported format for genotypes.`), then averages the
normalized pileups by dosage group. Returns the trace of computation
events in execution order together with the result. -/
def group_pileups (pileups_df : Table) (libsize_s : String → ℚ) (variant_id : String)
    (genotypes : Genotypes) (residualize : Option (Table → Table))
    (id_map : String → String)
    (get_genotype : String → String → DosageSeries) :
    List Ev × Except String (List (Int × List ℚ)) :=
  let pileups_rpm_df := norm_pileups pileups_df libsize_s residualize id_map
  match genotypes with
  | .str path =>
      if strEndsWith path ".vcf.gz" then
        let g := restrictSeries (get_genotype variant_id path)
          (pileups_rpm_df.map (fun c => c.1))
        ([.normalize, .genotypeLookup, .groupMean], .ok (groupAvg pileups_rpm_df g))
      else
        ([.normalize], .error "Unsupported format for genotypes.")
  | .series g => ([.normalize, .groupMean], .ok (groupAvg pileups_rpm_df g))
  | .other => ([.normalize], .error "Unsupported format for genotypes.")

/-- The `genotypes` values that reach the `raise ValueError` branch:
neither a dosage Series nor a string ending in `.vcf.gz`. -/
def unsupportedGenotypes : Genotypes → Bool
  | .str path => !(strEndsWith path ".vcf.gz")
  | .series _ => false
  | .other => true

/-- C6 counterexample: on an unsupported genotype source, `group_pileups`
does raise `ValueError: Unsupported format for genotypes.`, but only after
the `norm_pileups` call has run — the trace preceding the raise is
`[normalize]`, not empty, refuting "before any computation". -/
theorem C6_counterexample :
    (group_pileups [("A", [1])] (fun _ => 1000000) "v" Genotypes.other none (fun x => x)
        (fun _ _ => [])).2 = Except.error "Unsupported format for genotypes."
    ∧ (group_pileups [("A", [1])] (fun _ => 1000000) "v" Genotypes.other none (fun x => x)
        (fun _ _ => [])).1 = [Ev.normalize]
    ∧ (group_pileups [("A", [1])] (fun _ => 1000000) "v" Genotypes.other none (fun x => x)
        (fun _ _ => [])).1 ≠ [] :=
  ⟨rfl, rfl, by decide⟩

/-- C6 amended: for every unsupported genotype source, `group_pileups`
raises `ValueError: Unsupported format for genotypes.` before any genotype
lookup or averaging work — but after the normalization of the pileup
table, which has already been performed (the trace is exactly
`[normalize]`). -/
theorem C6_amended (t : Table) (lib : String → ℚ) (vid : String) (geno : Genotypes)
    (cov : Option (Table → Table)) (idm : String → String)
    (gg : String → String → DosageSeries)
    (h : unsupportedGenotypes geno = true) :
    (group_pileups t lib vid geno cov idm gg).2
        = Except.error "Unsupported format for genotypes."
    ∧ (group_pileups t lib vid geno cov idm gg).1 = [Ev.normalize]
    ∧ Ev.groupMean ∉ (group_pileups t lib vid geno cov idm gg).1 := by
  cases geno with
  | str path =>
      simp only [unsupportedGenotypes, Bool.not_eq_true'] at h
      refine ⟨?_, ?_, ?_⟩ <;> simp [group_pileups, h]
  | series g => exact absurd h Bool.false_ne_true
  | other => exact ⟨rfl, rfl, fun hmem => absurd (List.mem_singleton.mp hmem) (by decide)⟩

/-- Witness for C6 amended at a concrete unsupported input. -/
theorem C6_amended_witness :
    (group_pileups [("A", [1])] (fun _ => 2000000) "v" Genotypes.other none (fun x => x)
        (fun _ _ => [])).2 = Except.error "Unsupported format for genotypes."
    ∧ (group_pileups [("A", [1])] (fun _ => 2000000) "v" Genotypes.other none (fun x => x)
        (fun _ _ => [])).1 = [Ev.normalize]
    ∧ Ev.groupMean ∉ (group_pileups [("A", [1])] (fun _ => 2000000) "v" Genotypes.other
        none (fun x => x) (fun _ _ => [])).1 :=
  C6_amended [("A", [1])] (fun _ => 2000000) "v" Genotypes.other none (fun x => x)
    (fun _ _ => []) rfl

/-- C10: a string genotype source triggers the `gt.get_genotype`
collaborator exactly when it ends with `.vcf.gz`; every other string —
including `.vcf` and `.bcf` paths — is rejected with
`ValueError: Unsupported format for genotypes.` without being looked up. -/
theorem C10_str_genotypes (t : Table) (lib : String → ℚ) (vid : String) (path : String)
    (cov : Option (Table → Table)) (idm : String → String)
    (gg : String → String → DosageSeries) :
    (Ev.genotypeLookup ∈ (group_pileups t lib vid (Genotypes.str path) cov idm gg).1
        ↔ strEndsWith path ".vcf.gz" = true)
    ∧ (strEndsWith path ".vcf.gz" = false →
        (group_pileups t lib vid (Genotypes.str path) cov idm gg).2
          = Except.error "Unsupported format for genotypes.") := by
  cases h : strEndsWith path ".vcf.gz" with
  | true =>
      refine ⟨?_, fun hf => absurd hf (by decide)⟩
      simp [group_pileups, h]
  | false =>
      refine ⟨?_, fun _ => ?_⟩ <;> simp [group_pileups, h]

/-- Witness for C10 at the concrete paths `g.vcf.gz` and `g.vcf`. -/
theorem C10_witness :
    Ev.genotypeLookup
        ∈ (group_pileups [("A", [1])] (fun _ => 1000000) "v" (Genotypes.str "g.vcf.gz")
            none (fun x => x) (fun _ _ => [])).1
    ∧ (group_pileups [("A", [1])] (fun _ => 1000000) "v" (Genotypes.str "g.vcf")
        none (fun x => x) (fun _ _ => [])).2
        = Except.error "Unsupported format for genotypes." :=
  ⟨(C10_str_genotypes [("A", [1])] (fun _ => 1000000) "v" "g.vcf.gz" none (fun x => x)
      (fun _ _ => [])).1.mpr (by decide),
   (C10_str_genotypes [("A", [1])] (fun _ => 1000000) "v" "g.vcf" none (fun x => x)
      (fun _ _ => [])).2 (by decide)⟩

/-- `np.unique` output is strictly ascending (sorted with no duplicates). -/
theorem uniqueInts_pairwise_lt (l : List Int) : (uniqueInts l).Pairwise (· < ·) := by
  have hs : (uniqueInts l).Sorted (· ≤ ·) := List.sorted_insertionSort _ _
  have hn : (uniqueInts l).Nodup :=
    (List.perm_insertionSort _ _).nodup_iff.mpr (List.nodup_dedup l)
  exact hs.lt_of_le hn

/-- `np.unique` preserves the set of values. -/
theorem mem_uniqueInts {a : Int} {l : List Int} : a ∈ uniqueInts l ↔ a ∈ l := by
  unfold uniqueInts
  rw [List.mem_insertionSort, List.mem_dedup]

/-- A sample is a member of dosage group `i` iff the series pairs it with
dosage `i`. -/
theorem mem_groupMembers {g : DosageSeries} {i : Int} {s : String} :
    s ∈ groupMembers g i ↔ (s, some i) ∈ g := by
  unfold groupMembers
  simp only [List.mem_map, List.mem_filter, decide_eq_true_eq]
  constructor
  · rintro ⟨c, ⟨hc, h2⟩, h1⟩
    have hcs : c = (s, some i) := by cases c; simp_all
    exact hcs ▸ hc
  · intro h
    exact ⟨(s, some i), ⟨h, rfl⟩, rfl⟩

/-- A dosage value occurs among the non-missing dosages iff some sample
carries it. -/
theorem mem_dosageValues {g : DosageSeries} {i : Int} :
    i ∈ dosageValues g ↔ ∃ s, (s, some i) ∈ g := by
  unfold dosageValues
  simp only [List.mem_filterMap]
  constructor
  · rintro ⟨c, hc, h2⟩
    refine ⟨c.1, ?_⟩
    cases c
    simp_all
  · rintro ⟨s, hs⟩
    exact ⟨(s, some i), hs, rfl⟩

/-- A sample with missing dosage is in no dosage group (assuming unique
sample labels in the series). -/
theorem not_mem_groupMembers_of_missing {g : DosageSeries}
    (hnd : (g.map (fun c => c.1)).Nodup) {s : String} (hmiss : (s, none) ∈ g) (i : Int) :
    s ∉ groupMembers g i := by
  intro hmem
  have h2 : (s, some i) ∈ g := mem_groupMembers.mp hmem
  have h3 := List.inj_on_of_nodup_map hnd hmiss h2 rfl
  simp at h3

/-- The group labels of `groupAvg` are exactly `np.unique` of the
non-missing dosages. -/
theorem groupAvg_labels (rpm : Table) (g : DosageSeries) :
    (groupAvg rpm g).map (fun c => c.1) = uniqueInts (dosageValues g) := by
  unfold groupAvg
  rw [List.map_map]
  exact List.map_id _

/-- Selecting columns whose labels are all present equals the pointwise
lookup. -/
theorem selectCols_of_found (t : Table) (names : List String)
    (h : ∀ s ∈ names, (lookupCol t s).isSome = true) :
    selectCols t names = names.map (fun s => (lookupCol t s).getD []) := by
  induction names with
  | nil => rfl
  | cons a rest ih =>
    obtain ⟨v, hv⟩ := Option.isSome_iff_exists.mp (h a (by simp))
    have ih2 := ih (fun s hs => h s (by simp [hs]))
    simp only [selectCols] at ih2 ⊢
    simp [List.filterMap_cons, hv, ih2]

/-- Pointwise value of `mean(axis=1)`: at each position in range, the sum
across the selected columns divided by their number. -/
theorem rowMean_get (cols : List (List ℚ)) (n p : Nat) (hp : p < n) :
    (rowMean cols n)[p]?
      = some ((cols.map (fun c => c.getD p 0)).sum / (cols.length : ℚ)) := by
  unfold rowMean
  rw [List.getElem?_map, List.getElem?_range hp]
  rfl

/-- A nonempty table whose columns all have `n` rows has `n` rows. -/
theorem numRows_eq (t : Table) (n : Nat) (hne : t ≠ [])
    (hlen : ∀ c ∈ t, c.2.length = n) : numRows t = n := by
  cases t with
  | nil => exact absurd rfl hne
  | cons c rest => exact hlen c (by simp)

/-- C2: grouping by a dosage Series produces exactly one column per
distinct non-missing dosage value, in strictly ascending label order; each
group column holds, at every position, the arithmetic mean of the group
members' normalized values there; samples with missing dosage belong to no
group; and the spec example — dosages `{A:0, B:1, C:1}`, normalized
profiles `A=[2,2], B=[4,4], C=[6,6]` — groups to `{0:[2,2], 1:[5,5]}`. -/
theorem C2_group_pileups (t : Table) (lib : String → ℚ) (vid : String)
    (cov : Option (Table → Table)) (idm : String → String)
    (gg : String → String → DosageSeries) (g : DosageSeries) (n : Nat)
    (hnd : (g.map (fun c => c.1)).Nodup)
    (hcov : ∀ c ∈ g, (lookupCol (norm_pileups t lib cov idm) c.1).isSome = true)
    (hlen : ∀ c ∈ norm_pileups t lib cov idm, c.2.length = n) :
    (group_pileups t lib vid (Genotypes.series g) cov idm gg).2
        = Except.ok (groupAvg (norm_pileups t lib cov idm) g)
    ∧ ((groupAvg (norm_pileups t lib cov idm) g).map (fun c => c.1)).Pairwise (· < ·)
    ∧ (∀ i : Int, i ∈ (groupAvg (norm_pileups t lib cov idm) g).map (fun c => c.1)
        ↔ ∃ s, (s, some i) ∈ g)
    ∧ (∀ i col, (i, col) ∈ groupAvg (norm_pileups t lib cov idm) g → ∀ p, p < n →
        col[p]? = some
          (((groupMembers g i).map
              (fun s => ((lookupCol (norm_pileups t lib cov idm) s).getD []).getD p 0)).sum
            / ((groupMembers g i).length : ℚ)))
    ∧ (∀ s i, (s, none) ∈ g → s ∉ groupMembers g i)
    ∧ group_pileups [("A", [2, 2]), ("B", [4, 4]), ("C", [6, 6])] (fun _ => 1000000) "v"
        (Genotypes.series [("A", some 0), ("B", some 1), ("C", some 1)]) none (fun x => x)
        (fun _ _ => [])
      = ([Ev.normalize, Ev.groupMean], Except.ok [(0, [2, 2]), (1, [5, 5])]) := by
  refine ⟨rfl, ?_, ?_, ?_, ?_, ?_⟩
  · rw [groupAvg_labels]
    exact uniqueInts_pairwise_lt _
  · intro i
    rw [groupAvg_labels, mem_uniqueInts, mem_dosageValues]
  · intro i col hic p hp
    unfold groupAvg at hic
    obtain ⟨j, hj, hje⟩ := List.mem_map.mp hic
    rw [Prod.mk.injEq] at hje
    obtain ⟨rfl, hcol⟩ := hje
    obtain ⟨s0, hs0⟩ := mem_dosageValues.mp (mem_uniqueInts.mp hj)
    have hentry := hcov (s0, some j) hs0
    have hne : norm_pileups t lib cov idm ≠ [] := by
      intro h0
      rw [h0] at hentry
      simp [lookupCol] at hentry
    have hnr : numRows (norm_pileups t lib cov idm) = n := numRows_eq _ n hne hlen
    have hmemcov : ∀ s ∈ groupMembers g j, (lookupCol (norm_pileups t lib cov idm) s).isSome = true :=
      fun s hs => hcov (s, some j) (mem_groupMembers.mp hs)
    rw [← hcol, hnr, rowMean_get _ n p hp,
      selectCols_of_found _ _ hmemcov, List.map_map, List.length_map]
    rfl
  · intro s i hmiss
    exact not_mem_groupMembers_of_missing hnd hmiss i
  · simp +decide [group_pileups, groupAvg, norm_pileups, uniqueInts, dosageValues,
      groupMembers, selectCols, lookupCol, rowMean, numRows, List.insertionSort,
      List.orderedInsert, List.range_succ, List.dedup_cons_of_not_mem,
      List.dedup_cons_of_mem, List.filterMap_cons, Function.comp]
    norm_num

/-- Normalized-profile table of the spec's grouping example. -/
def exTable : Table := [("A", [2, 2]), ("B", [4, 4]), ("C", [6, 6])]

/-- Dosage series of the spec's grouping example. -/
def exDosages : DosageSeries := [("A", some 0), ("B", some 1), ("C", some 1)]

/-- Witness for C2 at the spec example (three samples, dosages 0/1/1). -/
theorem C2_witness :
    (group_pileups exTable (fun _ => 1000000) "v" (Genotypes.series exDosages) none
        (fun x => x) (fun _ _ => [])).2
        = Except.ok (groupAvg (norm_pileups exTable (fun _ => 1000000) none (fun x => x))
            exDosages)
    ∧ ((groupAvg (norm_pileups exTable (fun _ => 1000000) none (fun x => x))
          exDosages).map (fun c => c.1)).Pairwise (· < ·)
    ∧ (∀ i : Int, i ∈ (groupAvg (norm_pileups exTable (fun _ => 1000000) none (fun x => x))
          exDosages).map (fun c => c.1) ↔ ∃ s, (s, some i) ∈ exDosages)
    ∧ (∀ i col, (i, col) ∈ groupAvg (norm_pileups exTable (fun _ => 1000000) none (fun x => x))
          exDosages → ∀ p, p < 2 →
        col[p]? = some
          (((groupMembers exDosages i).map
              (fun s => ((lookupCol (norm_pileups exTable (fun _ => 1000000) none (fun x => x))
                  s).getD []).getD p 0)).sum
            / ((groupMembers exDosages i).length : ℚ)))
    ∧ (∀ s i, (s, none) ∈ exDosages → s ∉ groupMembers exDosages i)
    ∧ group_pileups [("A", [2, 2]), ("B", [4, 4]), ("C", [6, 6])] (fun _ => 1000000) "v"
        (Genotypes.series [("A", some 0), ("B", some 1), ("C", some 1)]) none (fun x => x)
        (fun _ _ => [])
      = ([Ev.normalize, Ev.groupMean], Except.ok [(0, [2, 2]), (1, [5, 5])]) :=
  C2_group_pileups exTable (fun _ => 1000000) "v" none (fun x => x) (fun _ _ => [])
    exDosages 2 (by decide) (by decide) (by decide)

/-- The `cd` context manager (pileup.py lines 19-24): saves `os.getcwd()`,
runs `os.chdir(cd_path)`, yields to the body, and runs
`os.chdir(saved_path)` after the yield. The generator has no
`try/finally`, so when the body raises, the exception propagates at the
yield point and the restoring `os.chdir(saved_path)` is skipped. The
working directory is threaded as an explicit `String` state; the body
reads the current directory and does not change it (as the wrapped
`subprocess.check_output` call does not). -/
def cd_run {α : Type} (cd_path : String) (body : String → Except String α)
    (cwd : String) : Except String α × String :=
  let saved_path := cwd
  match body cd_path with
  | Except.ok a => (Except.ok a, saved_path)
  | Except.error e => (Except.error e, cd_path)

/-- `_samtools_depth_wrapper` (pileup.py lines 27-45), restricted to its
working-directory behavior: builds the `samtools depth` command line and
runs it via the external-process collaborator `runCmd` (current directory,
command) — inside `cd bam_index_dir` when an index directory is given,
directly otherwise. Returns the call's result and the process working
directory after the call. -/
def samtools_depth_wrapper {α : Type} (runCmd : String → String → Except String α)
    (bam_file region_str sample_id : String) (bam_index_dir : Option String)
    (depth : Nat) (cwd : String) : Except String α × String :=
  let cmd := "export GCS_OAUTH_TOKEN=$GCS_OAUTH_TOKEN; samtools depth -a -a -d "
    ++ toString depth ++ " -Q 255 -r " ++ region_str ++ " " ++ bam_file
  match bam_index_dir with
  | some dir => cd_run dir (fun c => runCmd c cmd) cwd
  | none => (runCmd cwd cmd, cwd)

/-- C3 evaluated at the failing input: with an index directory supplied
and the external `samtools` call raising (`CalledProcessError`), the
working directory is left at the index directory, not restored to the
prior one — `cd` lacks a `try/finally`; the success path does restore, and
with no index directory the working directory is never changed. -/
theorem C3_code_bug :
    (samtools_depth_wrapper (fun _ _ => (Except.error "CalledProcessError" : Except String Unit))
        "f.bam" "chr1:1-100" "S1" (some "/idx") 100000 "/orig").2 = "/idx"
    ∧ "/idx" ≠ "/orig"
    ∧ (samtools_depth_wrapper (fun _ _ => (Except.ok () : Except String Unit))
        "f.bam" "chr1:1-100" "S1" (some "/idx") 100000 "/orig").2 = "/orig"
    ∧ (samtools_depth_wrapper (fun _ _ => (Except.error "CalledProcessError" : Except String Unit))
        "f.bam" "chr1:1-100" "S1" none 100000 "/orig").2 = "/orig" :=
  ⟨rfl, by decide, rfl, rfl⟩

/-- Run the pool's tasks in completion order: `sched` lists the task
indices in the order the workers finish them; each completed task `i`
stores its result under its submission sequence number `i`. -/
def runSchedule {α β : Type} (f : α → β) (tasks : List α) (sched : List Nat) :
    List (Nat × β) :=
  sched.filterMap (fun i => (tasks[i]?).map (fun a => (i, f a)))

/-- Lookup in the pool's result buffer by sequence number (first match). -/
def lookupBuf {β : Type} : List (Nat × β) → Nat → Option β
  | [], _ => none
  | c :: rest, i => if c.1 = i then some c.2 else lookupBuf rest i

/-- Sequence a list of optional results; `none` anywhere yields `none`. -/
def collectResults {α : Type} : List (Option α) → Option (List α)
  | [] => some []
  | o :: rest => o.bind (fun a => (collectResults rest).map (fun l => a :: l))

/-- `multiprocessing.Pool.imap(f, tasks)`: tasks complete in the
nondeterministic order `sched`, but results are yielded to the consumer in
submission order (sequence numbers `0, 1, ...`). -/
def poolImap {α β : Type} (f : α → β) (tasks : List α) (sched : List Nat) :
    Option (List β) :=
  collectResults
    ((List.range tasks.length).map (fun i => lookupBuf (runSchedule f tasks sched) i))

/-- `samtools_depth` (pileup.py lines 48-62), keyed on its ordering
behavior: one depth task per sample of `bam_s` (in input order) is
submitted to a pool of `numThreads` workers; the per-sample depth columns
produced by the pure collaborator `depthFn` (region, bam path → column)
are consumed from `pool.imap` in submission order and concatenated, so the
merged table pairs each sample with its column. The worker completion
order `sched` is the model of the pool's nondeterminism; `numThreads`
sizes the pool and does not enter the data path. -/
def samtools_depth {β : Type} (depthFn : String → String → β) (region_str : String)
    (bam_s : List (String × String)) (numThreads : Nat) (sched : List Nat) :
    Option (List (String × β)) :=
  let _ := numThreads
  poolImap (fun sb => (sb.1, depthFn region_str sb.2)) bam_s sched

theorem lookupBuf_runSchedule {α β : Type} (f : α → β) (tasks : List α) (sched : List Nat)
    (i : Nat) (a : α) (hi : i ∈ sched) (ha : tasks[i]? = some a) :
    lookupBuf (runSchedule f tasks sched) i = some (f a) := by
  induction sched with
  | nil => simp at hi
  | cons j rest ih =>
    by_cases hj : j = i
    · subst hj
      simp only [runSchedule, List.filterMap_cons, ha, Option.map_some']
      simp [lookupBuf]
    · have hi2 : i ∈ rest := by
        rcases List.mem_cons.mp hi with h | h
        · exact absurd h.symm hj
        · exact h
      have ih2 := ih hi2
      simp only [runSchedule, List.filterMap_cons] at ih2 ⊢
      cases hjv : tasks[j]? with
      | none => simpa [hjv] using ih2
      | some b =>
        simp only [Option.map_some']
        simpa [lookupBuf, hj] using ih2

theorem collectResults_map_some {α β : Type} (l : List α) (f : α → β) :
    collectResults (l.map (fun a => some (f a))) = some (l.map f) := by
  induction l with
  | nil => rfl
  | cons a rest ih => simp [collectResults, ih]

theorem poolImap_perm {α β : Type} (f : α → β) (tasks : List α) (sched : List Nat)
    (hperm : List.Perm sched (List.range tasks.length)) :
    poolImap f tasks sched = some (tasks.map f) := by
  unfold poolImap
  have hmem : ∀ i, i < tasks.length → i ∈ sched := fun i hi =>
    hperm.mem_iff.mpr (List.mem_range.mpr hi)
  have hcongr :
      (List.range tasks.length).map (fun i => lookupBuf (runSchedule f tasks sched) i)
        = (List.range tasks.length).map (fun i => (tasks[i]?).map f) := by
    apply List.map_congr_left
    intro i hi
    have hlt := List.mem_range.mp hi
    have ha : tasks[i]? = some tasks[i] := List.getElem?_eq_getElem hlt
    rw [lookupBuf_runSchedule f tasks sched i tasks[i] (hmem i hlt) ha, ha]
    rfl
  rw [hcongr]
  clear hmem hcongr hperm sched
  induction tasks with
  | nil => rfl
  | cons a rest ih =>
    have hr : List.range (a :: rest).length = 0 :: (List.range rest.length).map Nat.succ := by
      simp [List.range_succ_eq_map]
    rw [hr]
    simp only [List.map_cons, List.map_map]
    have hcomp :
        ((fun i => (((a :: rest)[i]?).map f)) ∘ Nat.succ)
          = fun i => ((rest[i]?).map f) := by
      funext i
      simp
    rw [hcomp]
    simp only [List.getElem?_cons_zero, Option.map_some', collectResults, Option.some_bind]
    rw [ih]
    rfl

/-- C4: for every input sample map and any two worker completion orders
(permutations of the submitted task sequence numbers), `samtools_depth`
merges the per-sample depth columns in exactly the input sample order —
`pool.imap` yields in submission order — so two runs over the same inputs,
in particular with pool sizes 1 and N, produce identical merged tables in
both column order and values. -/
theorem C4_samtools_depth_order {β : Type} (depthFn : String → String → β)
    (region_str : String) (bam_s : List (String × String)) (n1 n2 : Nat)
    (s1 s2 : List Nat)
    (h1 : List.Perm s1 (List.range bam_s.length))
    (h2 : List.Perm s2 (List.range bam_s.length)) :
    samtools_depth depthFn region_str bam_s n1 s1
        = some (bam_s.map (fun sb => (sb.1, depthFn region_str sb.2)))
    ∧ samtools_depth depthFn region_str bam_s n1 s1
        = samtools_depth depthFn region_str bam_s n2 s2 := by
  have e1 := poolImap_perm (fun sb : String × String => (sb.1, depthFn region_str sb.2))
    bam_s s1 h1
  have e2 := poolImap_perm (fun sb : String × String => (sb.1, depthFn region_str sb.2))
    bam_s s2 h2
  refine ⟨e1, ?_⟩
  show poolImap (fun sb : String × String => (sb.1, depthFn region_str sb.2)) bam_s s1
      = poolImap (fun sb : String × String => (sb.1, depthFn region_str sb.2)) bam_s s2
  rw [e1, e2]

/-- Witness for C4: two samples, completion orders `[1, 0]` (the second
task finishes first) and `[0, 1]`, pools of 1 and 12 workers. -/
theorem C4_witness :
    samtools_depth (fun _ bam => bam.length) "chr1:1-100"
        [("A", "a.bam"), ("B", "bb.bam")] 1 [1, 0]
        = some ([("A", "a.bam"), ("B", "bb.bam")].map
            (fun sb => (sb.1, (fun _ bam => String.length bam) "chr1:1-100" sb.2)))
    ∧ samtools_depth (fun _ bam => bam.length) "chr1:1-100"
        [("A", "a.bam"), ("B", "bb.bam")] 1 [1, 0]
        = samtools_depth (fun _ bam => bam.length) "chr1:1-100"
            [("A", "a.bam"), ("B", "bb.bam")] 12 [0, 1] :=
  C4_samtools_depth_order (fun _ bam => bam.length) "chr1:1-100"
    [("A", "a.bam"), ("B", "bb.bam")] 1 12 [1, 0] [0, 1] (by decide) (by decide)

/-- The `shade_range` argument of `plot`: either a list of absolute
breakpoint positions or a `chr:start-end` region string. -/
inductive ShadeRange where
  | ints (bps : List Int)
  | str (s : String)

/-- Python `str.split` with an explicit separator, on the character list:
fields in order, consecutive separators yielding empty fields. -/
def splitChars (p : Char → Bool) : List Char → List (List Char)
  | [] => [[]]
  | c :: rest =>
      match splitChars p rest with
      | [] => [[]]
      | f :: fs => if p c then [] :: f :: fs else (c :: f) :: fs

/-- Decimal digits of a character list as a natural number; `none` when
empty or containing a non-digit. -/
def charsToNat (cs : List Char) : Option Nat :=
  cs.foldl
    (fun acc c =>
      acc.bind (fun m => if c.isDigit then some (10 * m + (c.toNat - 48)) else none))
    (if cs.isEmpty then none else some 0)

/-- Python `int(str)` on a character list (optional leading minus sign). -/
def charsToInt : List Char → Option Int
  | [] => none
  | c :: rest =>
      if c = '-' then (charsToNat rest).map (fun m => -(m : Int))
      else (charsToNat (c :: rest)).map (fun m => (m : Int))

/-- The breakpoint-parsing steps of the shade branch (pileup.py lines
223-225): a string is split as `shade_range.split(':')[-1].split('-')` and
converted with `astype(int)` (a malformed literal raises `ValueError`); a
list is converted directly. -/
def parseShadeBreakpoints : ShadeRange → Except String (List Int)
  | .ints bps => Except.ok bps
  | .str s =>
      let fields := splitChars (fun c => c = '-')
        ((splitChars (fun c => c = ':') s.data).getLastD s.data)
      match collectResults (fields.map charsToInt) with
      | some bps => Except.ok bps
      | none => Except.error "ValueError: invalid literal for int()"

/-- The value bound to the name `ifct` in the module scope of pileup.py:
the name is referenced at line 227 (`shade_range = ifct(shade_range)`) but
is defined nowhere in the module, its imports, or the builtins, so the
reference raises `NameError` when evaluated. -/
def moduleIfct : Option (List Int → List Int) := none

/-- The shade branch of `plot` (pileup.py lines 222-231): parses the
breakpoints, shifts them by `gene.start_pos` into region-relative
coordinates, then evaluates `ifct(shade_range)` to map them into collapsed
display coordinates — which resolves the name `ifct` in module scope. -/
def shadeStep (ifctVal : Option (List Int → List Int)) (shade_range : ShadeRange)
    (start_pos : Int) : Except String (List Int) :=
  match parseShadeBreakpoints shade_range with
  | Except.error e => Except.error e
  | Except.ok bps =>
      let rel := bps.map (fun b => b - start_pos)
      match ifctVal with
      | some ifct => Except.ok (ifct rel)
      | none => Except.error "NameError: name ifct is not defined"

/-- The shade branch as it executes in pileup.py, where `ifct` is
undefined. -/
def plotShade (shade_range : ShadeRange) (start_pos : Int) : Except String (List Int) :=
  shadeStep moduleIfct shade_range start_pos

/-- C5 evaluated at well-formed inputs: the shade branch never completes —
for both a breakpoint list and a region string it raises
`NameError` (`ifct` is referenced at pileup.py line 227 but defined
nowhere in the module), instead of shading the intervals. -/
theorem C5_code_bug :
    plotShade (ShadeRange.ints [100, 200]) 50
        = Except.error "NameError: name ifct is not defined"
    ∧ plotShade (ShadeRange.str "chr1:100-200") 50
        = Except.error "NameError: name ifct is not defined"
    ∧ parseShadeBreakpoints (ShadeRange.str "chr1:100-200") = Except.ok [100, 200] := by
  exact ⟨rfl, rfl, rfl⟩

/-- A plot trace label: a Python string column label or a Python int (as
produced by grouping by dosage — and by `np.argsort`). -/
abbrev PlotLabel := Sum String Int

/-- A table passed to `plot`: ordered columns with string or int labels. -/
abbrev PlotTable := List (PlotLabel × List ℚ)

/-- `s = pileup_dfs[0].sum()`: per-column totals, in column order. -/
def colSums (t : PlotTable) : List (PlotLabel × ℚ) :=
  t.map (fun c => (c.1, c.2.sum))

/-- Series lookup by plot label (first match). -/
def lookupSum : List (PlotLabel × ℚ) → PlotLabel → Option ℚ
  | [], _ => none
  | c :: rest, i => if c.1 = i then some c.2 else lookupSum rest i

/-- `np.argsort(vals)`: the integer positions `0..n-1` sorted by ascending
value (ties in an unspecified order; this model keeps them stable). -/
def argsortAsc (vals : List ℚ) : List Nat :=
  List.insertionSort (fun i j => vals.getD i 0 ≤ vals.getD j 0) (List.range vals.length)

/-- The `order` argument of `plot`: `additive`, `sorted`, `none` (here
`noOrder`), or an explicit label list. -/
inductive OrderMode where
  | additive
  | sorted
  | noOrder
  | explicitList (l : List PlotLabel)

/-- The trace-order computation of `plot` (pileup.py lines 158-168), from
the first table's column sums `s = pileup_dfs[0].sum()`: an explicit list
is used as-is; `additive` takes the index, reversed when the first label's
sum is below the last's (an empty index raises in Python; defaults stand
in here, no claim depends on it); `sorted` takes `np.argsort(s)[::-1]` —
integer POSITIONS into `s`, not column labels; `none` takes the index. -/
def sorderOf (t0 : PlotTable) : OrderMode → List PlotLabel
  | .explicitList l => l
  | .additive =>
      let s := colSums t0
      let idx := s.map (fun c => c.1)
      if ((lookupSum s (idx.headD (Sum.inr 0))).getD 0)
          < ((lookupSum s (idx.getLastD (Sum.inr 0))).getD 0) then
        idx.reverse
      else idx
  | .sorted =>
      ((argsortAsc ((colSums t0).map (fun c => c.2))).reverse).map
        (fun j => Sum.inr (Int.ofNat j))
  | .noOrder => (colSums t0).map (fun c => c.1)

/-- The draw loop of `plot` (pileup.py lines 173-179): for panel `k`, the
labels actually drawn, in draw order — each `i` of the trace order is
drawn iff `i in pileup_dfs[k]`, i.e. iff `i` is a column label of that
panel's table. -/
def drawnLabels (pileup_dfs : List PlotTable) (mode : OrderMode) (k : Nat) :
    List PlotLabel :=
  (sorderOf (pileup_dfs.headD []) mode).filter
    (fun i => (pileup_dfs.getD k []).any (fun c => decide (c.1 = i)))

/-- C8 evaluated at the failing input: one panel with string columns `A`
(total 1) and `B` (total 2) and `order='sorted'`. `np.argsort` yields the
positions `[1, 0]`, which the draw loop then treats as column labels; the
membership test `i in pileup_dfs[0]` fails for both, so no trace is drawn
at all — not `B` then `A` in descending-total order as claimed. -/
theorem C8_code_bug :
    sorderOf [(Sum.inl "A", [1]), (Sum.inl "B", [2])] OrderMode.sorted
        = [Sum.inr 1, Sum.inr 0]
    ∧ drawnLabels [[(Sum.inl "A", [1]), (Sum.inl "B", [2])]] OrderMode.sorted 0 = []
    ∧ ([] : List PlotLabel) ≠ [Sum.inl "B", Sum.inl "A"] := by
  refine ⟨?_, ?_, by decide⟩ <;>
    simp +decide [sorderOf, drawnLabels, colSums, argsortAsc, lookupSum,
      List.insertionSort, List.orderedInsert, List.range_succ]

/-- The color cycle set on a panel's axis: the restricted 3-color
blue/orange/green cycle, or matplotlib's default cycle
(`set_prop_cycle(None)`). -/
inductive Cycler where
  | restricted3
  | defaultCycle
deriving DecidableEq

/-- The `custom_cycler` computation of `plot` (pileup.py lines 140-147):
the restricted cycle is selected iff the FIRST table has at most 3 columns
(`pileup_dfs[0].shape[1] <= 3`). -/
def customCycler (pileup_dfs : List PlotTable) : Cycler :=
  if (pileup_dfs.headD []).length ≤ 3 then Cycler.restricted3 else Cycler.defaultCycle

/-- The cycle each panel's axis receives (pileup.py lines 150-155): every
axis gets `ax.set_prop_cycle(custom_cycler)` — the same cycler, regardless
of the panel's own table. -/
def panelCycler (pileup_dfs : List PlotTable) (_k : Nat) : Cycler :=
  customCycler pileup_dfs

/-- C9 counterexample: with a first table of 2 columns and a second table
of 5 columns, panel 1 uses the restricted 3-color cycle although its own
table has more than 3 trace columns — the `≤ 3` test reads only
`pileup_dfs[0]` and its result is applied to every panel. -/
theorem C9_counterexample :
    ¬(panelCycler ([[(Sum.inr 0, []), (Sum.inr 1, [])],
          [(Sum.inr 0, []), (Sum.inr 1, []), (Sum.inr 2, []), (Sum.inr 3, []),
            (Sum.inr 4, [])]] : List PlotTable) 1
        = Cycler.restricted3
      ↔ (([[(Sum.inr 0, []), (Sum.inr 1, [])],
          [(Sum.inr 0, []), (Sum.inr 1, []), (Sum.inr 2, []), (Sum.inr 3, []),
            (Sum.inr 4, [])]] : List PlotTable).getD 1 []).length ≤ 3) := by
  decide

/-- C9 amended: every panel uses the restricted 3-color cycle iff the
FIRST table has at most 3 trace columns; when the first table has more
than 3 columns, every panel uses the default cycle — the choice is global,
not per panel. -/
theorem C9_amended (pileup_dfs : List PlotTable) (k : Nat)
    (hk : k < pileup_dfs.length) :
    panelCycler pileup_dfs k = Cycler.restricted3
      ↔ (pileup_dfs.headD []).length ≤ 3 := by
  unfold panelCycler customCycler
  by_cases h : (pileup_dfs.headD []).length ≤ 3 <;> simp [h]

/-- Witness for C9 amended at a one-panel, one-column input. -/
theorem C9_witness :
    panelCycler [[((Sum.inr 0 : PlotLabel), ([] : List ℚ))]] 0 = Cycler.restricted3
      ↔ ([[((Sum.inr 0 : PlotLabel), ([] : List ℚ))]].headD []).length ≤ 3 :=
  C9_amended [[((Sum.inr 0 : PlotLabel), ([] : List ℚ))]] 0 (by decide)
